import Mathlib

/-!
Verification of the manuals-cli repository: a shallow embedding of the
API-client layer (internal/client/client.go), the output renderer
(internal/output/output.go), and the table-building command handlers
(cmd/manuals/cmd/*.go), together with theorems settling the specified
behavioural claims.

Go strings are modelled as lists of bytes (GoStr), since Go `len`, slicing
and indexing operate on raw bytes.  The helper `gs` encodes a Lean string
literal whose characters are all ASCII; on ASCII text the byte encoding
coincides with the code points, which covers every concrete string
appearing in the source and in the claims.
-/

/-- GoStr models a Go string as its list of bytes (each 0..255). -/
abbrev GoStr := List Nat

/-- Encoding of an ASCII Lean string literal as a Go byte string. -/
def gs (s : String) : GoStr := s.data.map Char.toNat

namespace output

/-- Truncate, translated from internal/output/output.go lines 87-95:
if len(s) <= maxLen return s; if maxLen <= 3 return s[:maxLen];
otherwise return s[:maxLen-3] + "...".  The parameter is a Go int,
modelled as Int; lengths are byte lengths. -/
def Truncate (s : GoStr) (maxLen : Int) : GoStr :=
  if (s.length : Int) ≤ maxLen then s
  else if maxLen ≤ 3 then s.take maxLen.toNat
  else s.take (maxLen - 3).toNat ++ gs "..."

/-- Number of binary digits of a natural number, with explicit fuel
(128 suffices for every value below 2 to the 128). -/
def bitLen : Nat → Nat → Nat
  | 0, _ => 0
  | fuel + 1, n => if n = 0 then 0 else bitLen fuel (n / 2) + 1

/-- Rounding of a natural number to the nearest float64 value
(53-bit significand, round to nearest, ties to even), returned as the
exact natural number the float denotes.  Models the Go conversion
float64(bytes) for nonnegative bytes; values below 2 to the 53 are exact. -/
def fl53 (n : Nat) : Nat :=
  if n < 2 ^ 53 then n
  else
    let k := bitLen 128 n - 53
    let q := n / 2 ^ k
    let r := n % 2 ^ k
    let h := 2 ^ (k - 1)
    let q2 := if h < r then q + 1 else if r < h then q else if q % 2 = 0 then q else q + 1
    q2 * 2 ^ k

/-- Loop of FormatSize (output.go lines 103-107), fuel-based:
for n := bytes / unit; n >= unit; n /= unit with div *= unit; exp++ .
Returns the final (div, exp). -/
def sizeLoop : Nat → Nat → Nat → Nat → Nat × Nat
  | 0, _, div, exp => (div, exp)
  | fuel + 1, n, div, exp =>
    if 1024 ≤ n then sizeLoop fuel (n / 1024) (div * 1024) (exp + 1) else (div, exp)

/-- Decimal rendering with one fractional digit of the exact rational
num / den (den > 0), rounding to nearest with ties to even.  Models the Go
verb %.1f applied to a float64 whose exact value is num / den: Go prints
the decimal nearest to the exact binary value, breaking ties to even. -/
def fmtDec1 (num den : Nat) : String :=
  let t := num * 10
  let q := t / den
  let r := t % den
  let q2 := if den < 2 * r then q + 1 else if 2 * r < den then q else if q % 2 = 0 then q else q + 1
  toString (q2 / 10) ++ "." ++ toString (q2 % 10)

/-- Decimal rendering with two fractional digits of num / den, rounding to
nearest with ties to even; models the Go verb %.2f on an exact float64
value num / den. -/
def fmtDec2 (num den : Nat) : String :=
  let t := num * 100
  let q := t / den
  let r := t % den
  let q2 := if den < 2 * r then q + 1 else if 2 * r < den then q else if q % 2 = 0 then q else q + 1
  toString (q2 / 100) ++ "." ++
    (if q2 % 100 < 10 then "0" ++ toString (q2 % 100) else toString (q2 % 100))

/-- Unit letters of FormatSize, the Go string constant "KMGTPE" indexed
by exp. -/
def unitChars : List Char := ['K', 'M', 'G', 'T', 'P', 'E']

/-- Least scaling exponent: the smallest k with 2 ^ 52 * q <= p * 2 ^ k,
searched with fuel (first argument). -/
def scaleUp : Nat → Nat → Nat → Nat
  | 0, _, _ => 0
  | fuel + 1, p, q => if 2 ^ 52 * q ≤ p then 0 else scaleUp fuel (2 * p) q + 1

/-- Rounding of the positive rational p / q to the nearest float64
(round to nearest, ties to even).  The result (m, k) denotes the exact
float value m / 2 ^ k.  Used to model float64 literals arriving in JSON,
for example a score of 0.92 = ratToF53 92 100. -/
def ratToF53 (p q : Nat) : Nat × Nat :=
  let k := scaleUp 200 p q
  let t := p * 2 ^ k
  let m0 := t / q
  let r := t % q
  let m := if q < 2 * r then m0 + 1 else if 2 * r < q then m0 else if m0 % 2 = 0 then m0 else m0 + 1
  (m, k)

/-- FormatSize, translated from internal/output/output.go lines 97-109.
The float64 division float64(bytes)/float64(div) is modelled exactly:
div is a power of two, so the division only shifts the exponent and the
quotient is the exact rational fl53(bytes) / div; the %.1f verb is
modelled by fmtDec1 on that rational. -/
def FormatSize (bytes : Int) : String :=
  if bytes < 1024 then toString bytes ++ " B"
  else
    fmtDec1 (fl53 bytes.toNat) (sizeLoop 64 (bytes.toNat / 1024) 1024 0).1 ++ " " ++
      String.singleton (unitChars.getD (sizeLoop 64 (bytes.toNat / 1024) 1024 0).2 '?') ++ "B"

/-- Format constant FormatTable from output.go. -/
def FormatTable : String := "table"

/-- Format constant FormatJSON from output.go. -/
def FormatJSON : String := "json"

/-- Format constant FormatText from output.go. -/
def FormatText : String := "text"

/-- ASCII lower-casing of one character; models strings.ToLower on the
ASCII range (every recognized format name is ASCII). -/
def lowerChar (c : Char) : Char :=
  if 'A' ≤ c ∧ c ≤ 'Z' then Char.ofNat (c.toNat + 32) else c

/-- ASCII lower-casing of a string, character by character. -/
def toLowerStr (s : String) : String := String.mk (s.data.map lowerChar)

/-- Writer from output.go; only the stored format matters for behaviour
(the out field is the process stdout handle and carries no state). -/
structure Writer where
  format : String
deriving DecidableEq

/-- New, translated from internal/output/output.go lines 29-41: lower-case
the requested format, keep it when it is json or text, otherwise fall
back to table. -/
def New (format : String) : Writer :=
  let f := toLowerStr format
  if f = FormatJSON ∨ f = FormatText then ⟨f⟩ else ⟨FormatTable⟩

/-- Format accessor method of Writer (output.go lines 77-79). -/
def Writer.Format (w : Writer) : String := w.format

/-- IsJSON method of Writer (output.go lines 82-84). -/
def Writer.IsJSON (w : Writer) : Bool := w.format = FormatJSON

end output

namespace client

/-- APIVersion constant from internal/client/client.go line 15. -/
def APIVersion : String := "2025.12"

/-- Client state: the constructor New stores the base URL and API key
(client.go lines 26-34); the embedded HTTP transport carries no request
content. -/
structure Client where
  baseURL : String
  apiKey : String

/-- An outgoing HTTP request as the client builds it: method, full URL and
explicitly set headers. -/
structure Request where
  method : String
  url : String
  headers : List (String × String)

/-- Characters Go url.QueryEscape leaves unescaped (alphanumerics and
dash, underscore, dot, tilde). -/
def unreservedChar (c : Char) : Bool :=
  ('A' ≤ c ∧ c ≤ 'Z') ∨ ('a' ≤ c ∧ c ≤ 'z') ∨ ('0' ≤ c ∧ c ≤ '9') ∨
    c = '-' ∨ c = '_' ∨ c = '.' ∨ c = '~'

/-- Upper-case hexadecimal digit for a value 0..15. -/
def hexDigit (n : Nat) : Char :=
  (['0', '1', '2', '3', '4', '5', '6', '7', '8', '9', 'A', 'B', 'C', 'D', 'E', 'F']).getD n '0'

/-- Escape of one character under Go url.QueryEscape: unreserved
characters pass through, space becomes plus, anything else becomes a
percent-escaped byte.  Modelled on the ASCII range (one byte per
character), which covers every key and value the client sends. -/
def escQueryChar (c : Char) : String :=
  if unreservedChar c then String.singleton c
  else if c = ' ' then "+"
  else String.mk ['%', hexDigit (c.toNat / 16), hexDigit (c.toNat % 16)]

/-- Go url.QueryEscape over a whole string. -/
def queryEscape (s : String) : String :=
  String.join (s.data.map escQueryChar)

/-- Parameter multimaps are modelled as association lists; every call
site uses url.Values.Set, so keys are distinct and each key holds one
value.  Encode sorts by key, so the list order never reaches the wire. -/
abbrev Values := List (String × String)

/-- Byte-wise lexicographic order on byte strings, matching Go string
comparison (sort.Strings). -/
def lexLe : GoStr → GoStr → Bool
  | [], _ => true
  | _ :: _, [] => false
  | a :: as, b :: bs => if a < b then true else if b < a then false else lexLe as bs

/-- Key order used by url.Values.Encode, on ASCII keys. -/
def keyLe (a b : String) : Bool := lexLe (gs a) (gs b)

/-- Insertion into a key-sorted parameter list. -/
def insertSorted (p : String × String) : Values → Values
  | [] => [p]
  | q :: rest => if keyLe p.1 q.1 then p :: q :: rest else q :: insertSorted p rest

/-- Key-sorting of a parameter list, as url.Values.Encode does before
emitting (Go iterates the sorted key slice of the map). -/
def sortParams : Values → Values
  | [] => []
  | p :: rest => insertSorted p (sortParams rest)

/-- Encode, modelling Go url.Values.Encode: sort keys, escape keys and
values, join each pair with an equals sign and the pairs with
ampersands. -/
def encodeValues (vs : Values) : String :=
  String.intercalate "&" ((sortParams vs).map fun kv => queryEscape kv.1 ++ "=" ++ queryEscape kv.2)

/-- Parameters built by Search (client.go lines 101-105): q always set,
limit only when positive.  fmt.Sprintf with %d on an int is toString. -/
def searchParams (query : String) (limit : Int) : Values :=
  [("q", query)] ++ (if 0 < limit then [("limit", toString limit)] else [])

/-- Parameters built by ListDevices (client.go lines 116-128): each of the
four filters is Set only when positive respectively nonempty. -/
def listDevicesParams (limit offset : Int) (domain deviceType : String) : Values :=
  (if 0 < limit then [("limit", toString limit)] else []) ++
    (if 0 < offset then [("offset", toString offset)] else []) ++
    (if domain ≠ "" then [("domain", domain)] else []) ++
    (if deviceType ≠ "" then [("type", deviceType)] else [])

/-- Path built by ListDevices (client.go lines 130-133): /devices, with a
query string appended only when at least one parameter was set. -/
def listDevicesPath (limit offset : Int) (domain deviceType : String) : String :=
  if listDevicesParams limit offset domain deviceType = [] then "/devices"
  else "/devices?" ++ encodeValues (listDevicesParams limit offset domain deviceType)

/-- Parameters built by ListDocuments (client.go lines 153-162). -/
def listDocumentsParams (limit offset : Int) (deviceID : String) : Values :=
  (if 0 < limit then [("limit", toString limit)] else []) ++
    (if 0 < offset then [("offset", toString offset)] else []) ++
    (if deviceID ≠ "" then [("device_id", deviceID)] else [])

/-- Path built by ListDocuments (client.go lines 164-167). -/
def listDocumentsPath (limit offset : Int) (deviceID : String) : String :=
  if listDocumentsParams limit offset deviceID = [] then "/documents"
  else "/documents?" ++ encodeValues (listDocumentsParams limit offset deviceID)

/-- Request built by the shared get helper (client.go lines 218-223):
GET, base URL plus /api/ plus the version constant plus the path, and the
X-API-Key header holding the API key. -/
def getRequest (c : Client) (path : String) : Request :=
  ⟨"GET", c.baseURL ++ "/api/" ++ APIVersion ++ path, [("X-API-Key", c.apiKey)]⟩

/-- Request issued by Search (client.go lines 100-112). -/
def searchRequest (c : Client) (query : String) (limit : Int) : Request :=
  getRequest c ("/search?" ++ encodeValues (searchParams query limit))

/-- Request issued by ListDevices. -/
def listDevicesRequest (c : Client) (limit offset : Int) (domain deviceType : String) : Request :=
  getRequest c (listDevicesPath limit offset domain deviceType)

/-- Request issued by GetDevice (client.go lines 143-149). -/
def getDeviceRequest (c : Client) (id : String) : Request :=
  getRequest c ("/devices/" ++ id)

/-- Request issued by ListDocuments. -/
def listDocumentsRequest (c : Client) (limit offset : Int) (deviceID : String) : Request :=
  getRequest c (listDocumentsPath limit offset deviceID)

/-- Request issued by GetDocument (client.go lines 177-183). -/
def getDocumentRequest (c : Client) (id : String) : Request :=
  getRequest c ("/documents/" ++ id)

/-- Request issued by DownloadDocument (client.go lines 187-191): built
directly rather than through get, with the same method, URL shape and
header. -/
def downloadDocumentRequest (c : Client) (id : String) : Request :=
  ⟨"GET", c.baseURL ++ "/api/" ++ APIVersion ++ "/documents/" ++ id ++ "/download",
    [("X-API-Key", c.apiKey)]⟩

/-- SearchResult record from client.go lines 37-45.  String fields are
byte strings; the float64 score is carried as an exact dyadic value
(m, k) denoting m / 2 ^ k, the representation produced by ratToF53.
The field Typ renders the Go field Type, whose name Lean reserves. -/
structure SearchResult where
  DeviceID : GoStr
  Name : GoStr
  Domain : GoStr
  Typ : GoStr
  Path : GoStr
  Score : Nat × Nat
  Snippet : GoStr

/-- Device record from client.go lines 55-64 (fields the commands render). -/
structure Device where
  ID : GoStr
  Domain : GoStr
  Typ : GoStr
  Name : GoStr
  Path : GoStr
  Content : GoStr
  IndexedAt : GoStr

/-- Document record from client.go lines 75-84. -/
structure Document where
  ID : GoStr
  DeviceID : GoStr
  Path : GoStr
  Filename : GoStr
  MimeType : GoStr
  SizeBytes : Int
  Checksum : GoStr
  IndexedAt : GoStr

/-- ErrorResponse record from client.go lines 95-97. -/
structure ErrorResponse where
  Error : GoStr

/-- Extraction of the suggested filename from the Content-Disposition
header, translated from client.go lines 204-212.  An absent header is the
empty string (Header.Get returns empty).  The code compares only the
header LENGTH against len("attachment; filename=") = 21: when longer it
takes cd[21:] and then strips the first and last byte with the slice
filename[1:len(filename)-1].  That slice panics (none) when cd has
exactly 22 bytes, since then 1 > len(filename)-1 = 0. -/
def extractFilename (cd : GoStr) : Option GoStr :=
  if cd = [] then some []
  else if 21 < cd.length then
    let fn := cd.drop 21
    if fn.length < 2 then none
    else some ((fn.drop 1).take (fn.length - 2))
  else some []

/-- Whitespace bytes that encoding/json skips between tokens. -/
def isJSONWs (b : Nat) : Bool := b = 32 ∨ b = 9 ∨ b = 10 ∨ b = 13

/-- Drop of leading JSON whitespace. -/
def skipWs (s : GoStr) : GoStr := s.dropWhile isJSONWs

/-- Parse of a JSON string token (opening quote, content bytes, closing
quote).  Returns the content and the rest.  Content with backslash
escapes is out of the modelled fragment and is rejected; no string sent
in the specified scenarios contains an escape. -/
def parseJSONString : GoStr → Option (GoStr × GoStr)
  | 34 :: rest =>
    let content := rest.takeWhile fun b => b ≠ 34 ∧ b ≠ 92
    match rest.drop content.length with
    | 34 :: r2 => some (content, r2)
    | _ => none
  | _ => none

/-- Parse of the members of a JSON object whose values are all strings,
after the opening brace: repeatedly a key string, a colon, a value
string, then either a comma or the closing brace (byte 125).  Fuel-based
recursion; the fuel exceeds the byte length of the input at every call
site. -/
def parseMembers : Nat → GoStr → List (GoStr × GoStr) → Option (List (GoStr × GoStr) × GoStr)
  | 0, _, _ => none
  | fuel + 1, s, acc =>
    match parseJSONString (skipWs s) with
    | none => none
    | some (key, r1) =>
      match skipWs r1 with
      | 58 :: r2 =>
        match parseJSONString (skipWs r2) with
        | none => none
        | some (val, r3) =>
          match skipWs r3 with
          | 44 :: r4 => parseMembers fuel r4 (acc ++ [(key, val)])
          | 125 :: r4 => some (acc ++ [(key, val)], r4)
          | _ => none
      | _ => none

/-- Decoding of a non-2xx body into ErrorResponse, modelling
json.NewDecoder(resp.Body).Decode(&errResp) on the fragment of JSON the
error contract uses: an object whose values are strings.  A body that is
not such an object (for example the literal text oops) fails to decode.
Duplicate keys keep the last value, as encoding/json does; a missing
error key leaves the zero value, the empty string. -/
def decodeErrorResponse (body : GoStr) : Option ErrorResponse :=
  match skipWs body with
  | 123 :: rest =>
    match skipWs rest with
    | 125 :: _ => some ⟨[]⟩
    | _ =>
      match parseMembers (body.length + 1) rest [] with
      | some (ms, _) =>
        some ⟨((ms.reverse.find? fun m => m.1 = gs "error").map Prod.snd).getD []⟩
      | none => none
  | _ => none

/-- Message carried by the APIError a non-2xx response produces,
translated from client.go lines 231-238.  When Decode succeeds the
message is the decoded error field.  When Decode fails, the code falls
back to io.ReadAll(resp.Body) — but the json.Decoder has already read the
response body into its buffer (its first refill reads everything a
single Read returns, and every error body here fits one read), so
ReadAll finds the stream at EOF and the fallback message is EMPTY, not
the raw body. -/
def getErrMessage (body : GoStr) : GoStr :=
  match decodeErrorResponse body with
  | some er => er.Error
  | none => []

/-- Status and message pair of the error a non-2xx response produces in
get; the formatted text is API error (status): message. -/
def getAPIError (status : Int) (body : GoStr) : Int × GoStr :=
  (status, getErrMessage body)

end client

namespace cmd

/-- Go slice s[:n] on a byte string: defined when n <= len(s), a panic
(none) otherwise. -/
def goSliceTake (s : GoStr) (n : Nat) : Option GoStr :=
  if n ≤ s.length then some (s.take n) else none

/-- Row built for one device by devices list (devices.go lines 52-59):
ID[:8], Truncate(Name, 45), Domain, Type.  none models the slice panic. -/
def deviceRow (d : client.Device) : Option (List GoStr) :=
  (goSliceTake d.ID 8).map fun id8 => [id8, output.Truncate d.Name 45, d.Domain, d.Typ]

/-- Rows built by devices list over the returned page. -/
def devicesListRows (ds : List client.Device) : Option (List (List GoStr)) :=
  ds.mapM deviceRow

/-- Row built for one document by documents list (documents.go, rows with
ID[:8], Truncate(Filename, 45), MimeType, FormatSize(SizeBytes)). -/
def documentRow (d : client.Document) : Option (List GoStr) :=
  (goSliceTake d.ID 8).map fun id8 =>
    [id8, output.Truncate d.Filename 45, d.MimeType, gs (output.FormatSize d.SizeBytes)]

/-- Rows built by documents list over the returned page. -/
def documentsListRows (ds : List client.Document) : Option (List (List GoStr)) :=
  ds.mapM documentRow

/-- Checksum text printed by documents get: Checksum[:16] + "..."; none
models the slice panic on a short checksum. -/
def documentsGetChecksumCell (d : client.Document) : Option GoStr :=
  (goSliceTake d.Checksum 16).map fun c16 => c16 ++ gs "..."

/-- Row built for one search result by the search command (search command
file lines 45-53): DeviceID[:8], Truncate(Name, 40), Domain, Type,
Sprintf %.2f of Score. -/
def searchResultRow (r : client.SearchResult) : Option (List GoStr) :=
  (goSliceTake r.DeviceID 8).map fun id8 =>
    [id8, output.Truncate r.Name 40, r.Domain, r.Typ, gs (output.fmtDec2 r.Score.1 (2 ^ r.Score.2))]

/-- Rows built by the search command over the result list. -/
def searchRows (rs : List client.SearchResult) : Option (List (List GoStr)) :=
  rs.mapM searchResultRow

end cmd

namespace output

/-- Padding of a cell to a column width with spaces, as the tabwriter
does for every cell that is not the last of its line. -/
def twPad (c : GoStr) (w : Nat) : GoStr := c ++ List.replicate (w - c.length) 32

/-- Rendering of one line of cells given the widths of the columns the
enclosing blocks fixed: every cell but the last is padded to its column
width; the trailing cell is written verbatim. -/
def twWriteLine : List Nat → List GoStr → GoStr
  | _, [] => []
  | _, [c] => c
  | [], c :: rest => c ++ twWriteLine [] rest
  | w :: ws, c :: rest => twPad c w ++ twWriteLine ws rest

/-- Test whether a line owns a column cell at index col: the last cell of
a line terminates it and is never column-aligned, so the line needs at
least col + 2 cells. -/
def twHasCol (col : Nat) (line : List GoStr) : Bool := col + 2 ≤ line.length

/-- Width of a column block: the maximum cell width plus the padding (2),
from minwidth 0, as text/tabwriter computes it with padding 2 and
minwidth 0 (the arguments output.Table passes). -/
def twBlockWidth (col : Nat) (run : List (List GoStr)) : Nat :=
  run.foldl (fun w line => max w (2 + (line.getD col []).length)) 0

/-- Core of text/tabwriter Writer.format with minwidth 0, tabwidth 0,
padding 2, padchar space, flags 0: at the current column (the number of
widths fixed so far), lines split into maximal runs that do or do not own
a cell in that column; a run that does fixes the column width from its
own cells only and recurses one column deeper; lines that do not are
written with the widths fixed so far.  A line without tabs (such as the
separator rule Table prints) therefore breaks every column block.
Fuel-based recursion; the call site passes ample fuel for its input. -/
def twFormat : Nat → List Nat → List (List GoStr) → List GoStr
  | 0, widths, lines => lines.map (twWriteLine widths)
  | fuel + 1, widths, lines =>
    match lines with
    | [] => []
    | l :: ls =>
      let col := widths.length
      if twHasCol col l then
        let run := (l :: ls).takeWhile (twHasCol col)
        let rest := (l :: ls).dropWhile (twHasCol col)
        twFormat fuel (widths ++ [twBlockWidth col run]) run ++ twFormat fuel widths rest
      else
        twWriteLine widths l :: twFormat fuel widths ls

/-- Table, translated from internal/output/output.go lines 51-64: the
header cells joined by tabs, a dash rule as long as the headers joined by
two spaces, then the row cells joined by tabs, all flushed through a
tabwriter(minwidth 0, tabwidth 0, padding 2, space).  The result is the
list of output lines. -/
def Table (headers : List GoStr) (rows : List (List GoStr)) : List GoStr :=
  let sep := List.replicate (List.intercalate (gs "  ") headers).length 45
  twFormat 32 [] (headers :: [sep] :: rows)

end output

example : client.listDevicesPath 0 0 "" "" = "/devices" := by decide
example : client.listDevicesPath 10 20 "hardware" "" =
    "/devices?domain=hardware&limit=10&offset=20" := by decide
example : client.encodeValues (client.searchParams "uart protocol" 5) =
    "limit=5&q=uart+protocol" := by decide

example : output.New "xml" = output.New "table" := by decide
example : output.Writer.IsJSON (output.New "JSON") = true := by decide

example : output.Truncate (gs "hello world") 8 = gs "hello..." := by decide
example : output.Truncate (gs "hi") 8 = gs "hi" := by decide
example : output.Truncate (gs "hello") 2 = gs "he" := by decide
example : output.FormatSize 0 = "0 B" := by decide
example : output.FormatSize 1023 = "1023 B" := by decide
example : output.FormatSize 1024 = "1.0 KB" := by decide
example : output.FormatSize 1536 = "1.5 KB" := by decide
example : output.FormatSize 1048576 = "1.0 MB" := by decide
example : output.FormatSize (-5) = "-5 B" := by decide
example : output.FormatSize 1280 = "1.2 KB" := by decide
example : output.fmtDec2 (output.ratToF53 92 100).1 (2 ^ (output.ratToF53 92 100).2) = "0.92" := by decide

example : output.Table ([gs "ID", gs "NAME", gs "DOMAIN", gs "TYPE", gs "SCORE"])
    [[gs "abc123ef", gs "ESP32 Dev Board", gs "hardware", gs "dev-boards", gs "0.92"]] =
    [gs "ID  NAME  DOMAIN  TYPE  SCORE",
     List.replicate 29 45,
     gs "abc123ef  ESP32 Dev Board  hardware  dev-boards  0.92"] := by decide

example : client.extractFilename (gs "attachment; filename=\"manual.pdf\"") =
    some (gs "manual.pdf") := by decide
example : client.extractFilename (gs "") = some [] := by decide
example : client.extractFilename (gs "attachment; filename=x") = none := by decide
example : client.extractFilename (gs "XXXXXXXXXXXXXXXXXXXXXXXX") = some (gs "X") := by decide

example : client.getErrMessage (gs "\x7b\"error\":\"not found\"\x7d") = gs "not found" := by decide
example : client.getErrMessage (gs "oops") = gs "" := by decide
example : client.getErrMessage (gs " \x7b \"code\":\"x\", \"error\":\"bad\" \x7d ") = gs "bad" := by decide

/-- Helper: the three-byte ellipsis has length 3. -/
theorem gs_ellipsis_length : (gs "...").length = 3 := by decide

/-- C4: for maxLen >= 0, Truncate returns s unchanged when len(s) <= maxLen;
when s is longer and maxLen <= 3 it returns the first maxLen bytes with no
ellipsis; when s is longer and maxLen > 3 it returns the first maxLen - 3
bytes followed by the three-byte ellipsis and has length exactly maxLen; in
every case the result length is at most maxLen (all lengths raw bytes). -/
theorem truncate_spec (s : GoStr) (maxLen : Int) (hm : 0 ≤ maxLen) :
    ((s.length : Int) ≤ maxLen → output.Truncate s maxLen = s) ∧
    (maxLen < (s.length : Int) → maxLen ≤ 3 →
      output.Truncate s maxLen = s.take maxLen.toNat) ∧
    (maxLen < (s.length : Int) → 3 < maxLen →
      output.Truncate s maxLen = s.take (maxLen - 3).toNat ++ gs "..." ∧
      ((output.Truncate s maxLen).length : Int) = maxLen) ∧
    ((output.Truncate s maxLen).length : Int) ≤ maxLen := by
  refine ⟨?_, ?_, ?_, ?_⟩
  · intro h
    simp [output.Truncate, h]
  · intro h hle
    rw [output.Truncate, if_neg (by omega), if_pos hle]
  · intro h hgt
    rw [output.Truncate, if_neg (by omega), if_neg (by omega)]
    refine ⟨rfl, ?_⟩
    simp only [List.length_append, List.length_take, gs_ellipsis_length]
    omega
  · by_cases h1 : (s.length : Int) ≤ maxLen
    · rw [output.Truncate, if_pos h1]
      exact h1
    · by_cases h2 : maxLen ≤ 3
      · rw [output.Truncate, if_neg h1, if_pos h2]
        simp only [List.length_take]
        omega
      · rw [output.Truncate, if_neg h1, if_neg h2]
        simp only [List.length_append, List.length_take, gs_ellipsis_length]
        omega

/-- Witness for truncate_spec at s = "hello world", maxLen = 8. -/
theorem truncate_spec_witness :
    output.Truncate (gs "hello world") 8 =
      (gs "hello world").take ((8 : Int) - 3).toNat ++ gs "..." ∧
    ((output.Truncate (gs "hello world") 8).length : Int) = 8 :=
  (truncate_spec (gs "hello world") 8 (by decide)).2.2.1 (by decide) (by decide)

/-- Helper: the filename extraction on a header of at most 21 bytes (or an
absent header) yields the empty filename. -/
theorem extractFilename_short (cd : GoStr) (h : cd.length ≤ 21) :
    client.extractFilename cd = some [] := by
  by_cases hnil : cd = []
  · rw [client.extractFilename, if_pos hnil]
  · rw [client.extractFilename, if_neg hnil, if_neg (by omega)]

/-- Helper: the filename extraction on a header of exactly 22 bytes panics
(slice bounds out of range on filename[1:0]). -/
theorem extractFilename_eq22 (cd : GoStr) (h : cd.length = 22) :
    client.extractFilename cd = none := by
  have hnil : cd ≠ [] := by
    intro hn
    rw [hn] at h
    simp at h
  rw [client.extractFilename, if_neg hnil, if_pos (by omega),
    if_pos (by simp only [List.length_drop]; omega)]

/-- Helper: the filename extraction on a header of at least 23 bytes returns
the bytes from index 22 up to but excluding the last byte, whatever the
header content. -/
theorem extractFilename_long (cd : GoStr) (h : 23 ≤ cd.length) :
    client.extractFilename cd = some ((cd.drop 22).take (cd.length - 23)) := by
  have hnil : cd ≠ [] := by
    intro hn
    rw [hn] at h
    simp at h
  rw [client.extractFilename, if_neg hnil, if_pos (by omega),
    if_neg (by simp only [List.length_drop]; omega)]
  have hd : (cd.drop 21).drop 1 = cd.drop 22 := by
    rw [List.drop_drop]
  have hl : (cd.drop 21).length - 2 = cd.length - 23 := by
    simp only [List.length_drop]
    omega
  rw [hd, hl]

/-- C10: the DownloadDocument filename extraction on a 200 response depends
only on the byte length of the Content-Disposition header: length at most 21
(or absent) gives the empty suggested filename; length exactly 22 panics;
length at least 23 gives the header bytes from index 22 up to but excluding
the last byte, regardless of whether the header carries the attachment
form at all. -/
theorem extractFilename_length_spec (cd : GoStr) :
    (cd.length ≤ 21 → client.extractFilename cd = some []) ∧
    (cd.length = 22 → client.extractFilename cd = none) ∧
    (23 ≤ cd.length → client.extractFilename cd = some ((cd.drop 22).take (cd.length - 23))) :=
  ⟨extractFilename_short cd, extractFilename_eq22 cd, extractFilename_long cd⟩

/-- Witness for extractFilename_length_spec at three concrete headers of
lengths 21, 22 and 24. -/
theorem extractFilename_length_spec_witness :
    client.extractFilename (gs "attachment; filename=") = some [] ∧
    client.extractFilename (gs "attachment; filename=x") = none ∧
    client.extractFilename (gs "XXXXXXXXXXXXXXXXXXXXXXXX") =
      some (((gs "XXXXXXXXXXXXXXXXXXXXXXXX").drop 22).take
        ((gs "XXXXXXXXXXXXXXXXXXXXXXXX").length - 23)) :=
  ⟨(extractFilename_length_spec (gs "attachment; filename=")).1 (by decide),
   (extractFilename_length_spec (gs "attachment; filename=x")).2.1 (by decide),
   (extractFilename_length_spec (gs "XXXXXXXXXXXXXXXXXXXXXXXX")).2.2 (by decide)⟩

/-- C2 counterexample: a malformed 24-byte Content-Disposition header that is
not of the form attachment; filename="..." yields the nonempty suggested
filename X rather than the empty filename the claim requires. -/
theorem contentDisposition_malformed_counterexample :
    client.extractFilename (gs "XXXXXXXXXXXXXXXXXXXXXXXX") = some (gs "X") ∧
    gs "X" ≠ ([] : GoStr) := by decide

/-- C2 amended: on a 200 DownloadDocument response, a header of the exact
well-formed shape attachment; filename="name" yields the quoted name, and an
absent header yields the empty suggested filename; the code however never
checks the fixed prefix, so malformed headers longer than 22 bytes yield
their bytes from index 22 through the second-to-last instead of the empty
string, and a header of exactly 22 bytes panics. -/
theorem downloadFilename_spec :
    (∀ name : GoStr,
      client.extractFilename (gs "attachment; filename=\"" ++ name ++ gs "\"") = some name) ∧
    client.extractFilename (gs "") = some [] := by
  refine ⟨?_, by decide⟩
  intro name
  have h1 : (gs "attachment; filename=\"").length = 22 := by decide
  have hlen : (gs "attachment; filename=\"" ++ name ++ gs "\"").length = name.length + 23 := by
    simp only [List.length_append, h1]
    have h2 : (gs "\"").length = 1 := by decide
    rw [h2]
    omega
  rw [extractFilename_long _ (by omega)]
  have hdrop : (gs "attachment; filename=\"" ++ name ++ gs "\"").drop 22 = name ++ gs "\"" := by
    calc (gs "attachment; filename=\"" ++ name ++ gs "\"").drop 22
        = (gs "attachment; filename=\"" ++ (name ++ gs "\"")).drop
            (gs "attachment; filename=\"").length := by rw [List.append_assoc, h1]
      _ = name ++ gs "\"" := List.drop_left _ _
  rw [hdrop, hlen]
  have htake : name.length + 23 - 23 = name.length := by omega
  rw [htake]
  exact congrArg some (List.take_left name (gs "\""))

/-- C1 evidence: on a non-2xx response whose body is the JSON object with an
error field, the APIError carries that field as its message; but on the
non-JSON body oops the decoder consumes the stream before the io.ReadAll
fallback runs, so the APIError message is EMPTY, not the raw body. -/
theorem getError_rawBody_lost :
    client.getAPIError 404 (gs "\x7b\"error\":\"not found\"\x7d") = (404, gs "not found") ∧
    client.getAPIError 500 (gs "oops") = (500, []) ∧
    ([] : GoStr) ≠ gs "oops" := by decide

/-- C3 counterexample: ListDevices(10, 20, "hardware", "") does not issue the
query string limit=10&offset=20&domain=hardware; url.Values.Encode emits the
parameters in key-sorted order, giving domain=hardware&limit=10&offset=20. -/
theorem listDevices_query_counterexample :
    client.encodeValues (client.listDevicesParams 10 20 "hardware" "") ≠
      "limit=10&offset=20&domain=hardware" := by decide

/-- C3 amended: ListDevices(0,0,"","") issues a GET whose URL has no query
string at all; ListDevices(10,20,"hardware","") issues exactly the parameters
limit=10, offset=20 and domain=hardware with no type parameter, emitted in
key-sorted order as domain=hardware&limit=10&offset=20; in general each of
the four filters appears among the query parameters exactly when it is
nonzero (limit, offset) respectively nonempty (domain, type), never as 0 or
the empty string. -/
theorem listDevices_query_spec :
    client.listDevicesPath 0 0 "" "" = "/devices" ∧
    client.listDevicesPath 10 20 "hardware" "" =
      "/devices?domain=hardware&limit=10&offset=20" ∧
    ∀ (limit offset : Int) (domain deviceType : String),
      (("limit" ∈ (client.listDevicesParams limit offset domain deviceType).map Prod.fst) ↔
        0 < limit) ∧
      (("offset" ∈ (client.listDevicesParams limit offset domain deviceType).map Prod.fst) ↔
        0 < offset) ∧
      (("domain" ∈ (client.listDevicesParams limit offset domain deviceType).map Prod.fst) ↔
        domain ≠ "") ∧
      (("type" ∈ (client.listDevicesParams limit offset domain deviceType).map Prod.fst) ↔
        deviceType ≠ "") := by
  refine ⟨by decide, by decide, ?_⟩
  intro limit offset domain deviceType
  by_cases h1 : 0 < limit <;> by_cases h2 : 0 < offset <;>
    by_cases h3 : domain = "" <;> by_cases h4 : deviceType = "" <;>
    simp [client.listDevicesParams, h1, h2, h3, h4]

/-- C7: constructing a renderer with any format string whose lower-casing is
not a recognized value behaves identically to constructing one with table: in
particular New("xml") and New("table") are equal writers, with the same
Format() result and the same IsJSON() result, which is false. -/
theorem new_fallback_spec :
    (∀ s : String,
      output.toLowerStr s ≠ output.FormatJSON → output.toLowerStr s ≠ output.FormatText →
      output.New s = output.New "table") ∧
    output.New "xml" = output.New "table" ∧
    (output.New "xml").Format = (output.New "table").Format ∧
    (output.New "xml").IsJSON = (output.New "table").IsJSON ∧
    (output.New "xml").IsJSON = false := by
  refine ⟨?_, by decide, by decide, by decide, by decide⟩
  intro s h1 h2
  have hno : ¬ (output.toLowerStr s = output.FormatJSON ∨ output.toLowerStr s = output.FormatText) := by
    rintro (h | h)
    · exact h1 h
    · exact h2 h
  rw [output.New, if_neg hno]
  decide

/-- Witness for new_fallback_spec at the unrecognized format xml. -/
theorem new_fallback_spec_witness :
    output.New "xml" = output.New "table" :=
  new_fallback_spec.1 "xml" (by decide) (by decide)

/-- Helper: a mapM over Option fails exactly when some element fails. -/
theorem mapM_none_iff {α β : Type} (f : α → Option β) (l : List α) :
    l.mapM f = none ↔ ∃ a ∈ l, f a = none := by
  induction l with
  | nil =>
    rw [List.mapM_nil]
    simp
  | cons a l ih =>
    rw [List.mapM_cons]
    cases hfa : f a with
    | none => simp [hfa]
    | some b =>
      cases hml : l.mapM f with
      | none =>
        simp only [hfa, hml, Option.bind_eq_bind, Option.some_bind, Option.none_bind]
        simp [ih.mp hml]
      | some bs =>
        constructor
        · intro h
          simp [hfa, hml] at h
        · rintro ⟨x, hx, hfx⟩
          rcases List.mem_cons.mp hx with rfl | hx2
          · rw [hfa] at hfx
            exact absurd hfx (by simp)
          · have hn : l.mapM f = none := ih.mpr ⟨x, hx2, hfx⟩
            rw [hml] at hn
            exact absurd hn (by simp)

/-- Helper: the devices list row for one device panics exactly when the id is
shorter than 8 bytes. -/
theorem deviceRow_none_iff (d : client.Device) :
    cmd.deviceRow d = none ↔ d.ID.length < 8 := by
  rw [cmd.deviceRow, cmd.goSliceTake]
  by_cases h : 8 ≤ d.ID.length <;> simp [h] <;> omega

/-- Helper: the documents list row for one document panics exactly when the id
is shorter than 8 bytes. -/
theorem documentRow_none_iff (d : client.Document) :
    cmd.documentRow d = none ↔ d.ID.length < 8 := by
  rw [cmd.documentRow, cmd.goSliceTake]
  by_cases h : 8 ≤ d.ID.length <;> simp [h] <;> omega

/-- Helper: the search row for one result panics exactly when the device id is
shorter than 8 bytes. -/
theorem searchResultRow_none_iff (r : client.SearchResult) :
    cmd.searchResultRow r = none ↔ r.DeviceID.length < 8 := by
  rw [cmd.searchResultRow, cmd.goSliceTake]
  by_cases h : 8 ≤ r.DeviceID.length <;> simp [h] <;> omega

/-- C9: the non-JSON rendering paths slice identifiers with no length guard;
each rendering is panic-free exactly when every rendered id has at least 8
bytes (devices list, documents list, search) and the checksum printed by
documents get has at least 16 bytes; a response containing any shorter id or
checksum makes the rendering panic (none) instead of returning rows. -/
theorem render_slice_panic_spec :
    (∀ ds : List client.Device,
      cmd.devicesListRows ds = none ↔ ∃ d ∈ ds, d.ID.length < 8) ∧
    (∀ ds : List client.Document,
      cmd.documentsListRows ds = none ↔ ∃ d ∈ ds, d.ID.length < 8) ∧
    (∀ d : client.Document,
      cmd.documentsGetChecksumCell d = none ↔ d.Checksum.length < 16) ∧
    (∀ rs : List client.SearchResult,
      cmd.searchRows rs = none ↔ ∃ r ∈ rs, r.DeviceID.length < 8) := by
  refine ⟨?_, ?_, ?_, ?_⟩
  · intro ds
    rw [cmd.devicesListRows, mapM_none_iff]
    simp only [deviceRow_none_iff]
  · intro ds
    rw [cmd.documentsListRows, mapM_none_iff]
    simp only [documentRow_none_iff]
  · intro d
    rw [cmd.documentsGetChecksumCell, cmd.goSliceTake]
    by_cases h : 16 ≤ d.Checksum.length <;> simp [h] <;> omega
  · intro rs
    rw [cmd.searchRows, mapM_none_iff]
    simp only [searchResultRow_none_iff]

/-- Witness for render_slice_panic_spec: a device page with a 4-byte id
panics, a page of well-formed 8-byte ids does not. -/
theorem render_slice_panic_spec_witness :
    cmd.devicesListRows
      [⟨gs "abcd", gs "hardware", gs "x", gs "n", gs "p", gs "", gs ""⟩] = none ∧
    ¬ cmd.documentsGetChecksumCell
      ⟨gs "abcd1234", gs "d", gs "p", gs "f", gs "m", 0, gs "0123456789abcdef0123", gs ""⟩ = none :=
  ⟨(render_slice_panic_spec.1 _).mpr ⟨_, List.mem_singleton.mpr rfl, by decide⟩,
   fun h => absurd ((render_slice_panic_spec.2.2.1 _).mp h) (by decide)⟩

/-- Sample search result of the C8 scenario: device id beginning abc123ef,
name ESP32 Dev Board, domain hardware, type dev-boards, score 0.92 carried as
the exact float64 nearest 0.92. -/
def sampleSearchResult : client.SearchResult :=
  ⟨gs "abc123ef0123456789", gs "ESP32 Dev Board", gs "hardware", gs "dev-boards",
   gs "", output.ratToF53 92 100, gs "snippet text"⟩

/-- C8: rendering the one-result search response in table mode: the search
command builds exactly one data row whose ID cell is the first 8 bytes of the
device id and whose score cell is the string 0.92, and the table consists of
the header line ID  NAME  DOMAIN  TYPE  SCORE, the dash rule, and that single
data row. -/
theorem search_table_scenario :
    cmd.searchRows [sampleSearchResult] =
      some [[sampleSearchResult.DeviceID.take 8, gs "ESP32 Dev Board", gs "hardware",
             gs "dev-boards", gs "0.92"]] ∧
    sampleSearchResult.DeviceID.take 8 = gs "abc123ef" ∧
    output.Table [gs "ID", gs "NAME", gs "DOMAIN", gs "TYPE", gs "SCORE"]
      [[sampleSearchResult.DeviceID.take 8, gs "ESP32 Dev Board", gs "hardware",
        gs "dev-boards", gs "0.92"]] =
      [gs "ID  NAME  DOMAIN  TYPE  SCORE",
       List.replicate 29 45,
       gs "abc123ef  ESP32 Dev Board  hardware  dev-boards  0.92"] := by decide

/-- Property C6 asserts of one request: a GET that carries the API key in the
fixed X-API-Key header and targets base URL /api/ version / resource. -/
def reqOK (c : client.Client) (r : client.Request) : Prop :=
  r.method = "GET" ∧ r.headers = [("X-API-Key", c.apiKey)] ∧
    ∃ rest, r.url = c.baseURL ++ "/api/" ++ client.APIVersion ++ "/" ++ rest

/-- Helper: every request built through the shared get helper satisfies reqOK
as soon as its path starts with a slash. -/
theorem getRequest_ok (c : client.Client) (path rest : String)
    (h : path = "/" ++ rest) : reqOK c (client.getRequest c path) := by
  refine ⟨rfl, rfl, rest, ?_⟩
  show c.baseURL ++ "/api/" ++ client.APIVersion ++ path =
    c.baseURL ++ "/api/" ++ client.APIVersion ++ "/" ++ rest
  rw [h, ← String.append_assoc]

/-- Helper: the ListDevices path starts with a slash in both branches. -/
theorem listDevicesPath_slash (limit offset : Int) (domain deviceType : String) :
    ∃ r, client.listDevicesPath limit offset domain deviceType = "/" ++ r := by
  rw [client.listDevicesPath]
  by_cases h : client.listDevicesParams limit offset domain deviceType = []
  · exact ⟨"devices", by rw [if_pos h]; rfl⟩
  · refine ⟨"devices?" ++ client.encodeValues (client.listDevicesParams limit offset domain deviceType), ?_⟩
    rw [if_neg h, show ("/devices?" : String) = "/" ++ "devices?" from rfl, String.append_assoc]

/-- Helper: the ListDocuments path starts with a slash in both branches. -/
theorem listDocumentsPath_slash (limit offset : Int) (deviceID : String) :
    ∃ r, client.listDocumentsPath limit offset deviceID = "/" ++ r := by
  rw [client.listDocumentsPath]
  by_cases h : client.listDocumentsParams limit offset deviceID = []
  · exact ⟨"documents", by rw [if_pos h]; rfl⟩
  · refine ⟨"documents?" ++ client.encodeValues (client.listDocumentsParams limit offset deviceID), ?_⟩
    rw [if_neg h, show ("/documents?" : String) = "/" ++ "documents?" from rfl, String.append_assoc]

/-- C6: every request any client operation constructs is a GET carrying the
API key in the fixed X-API-Key header against a URL of the form
base URL /api/ 2025.12 / resource, for every base URL, key and argument. -/
theorem requests_shape_spec (c : client.Client) (q id domain deviceType : String)
    (limit offset : Int) :
    reqOK c (client.searchRequest c q limit) ∧
    reqOK c (client.listDevicesRequest c limit offset domain deviceType) ∧
    reqOK c (client.getDeviceRequest c id) ∧
    reqOK c (client.listDocumentsRequest c limit offset id) ∧
    reqOK c (client.getDocumentRequest c id) ∧
    reqOK c (client.downloadDocumentRequest c id) := by
  refine ⟨?_, ?_, ?_, ?_, ?_, ?_⟩
  · exact getRequest_ok c _ ("search?" ++ client.encodeValues (client.searchParams q limit))
      (by rw [show ("/search?" : String) = "/" ++ "search?" from rfl, String.append_assoc])
  · obtain ⟨r, hr⟩ := listDevicesPath_slash limit offset domain deviceType
    exact getRequest_ok c _ r hr
  · exact getRequest_ok c _ ("devices/" ++ id)
      (by rw [show ("/devices/" : String) = "/" ++ "devices/" from rfl, String.append_assoc])
  · obtain ⟨r, hr⟩ := listDocumentsPath_slash limit offset id
    exact getRequest_ok c _ r hr
  · exact getRequest_ok c _ ("documents/" ++ id)
      (by rw [show ("/documents/" : String) = "/" ++ "documents/" from rfl, String.append_assoc])
  · refine ⟨rfl, rfl, "documents/" ++ id ++ "/download", ?_⟩
    show c.baseURL ++ "/api/" ++ client.APIVersion ++ "/documents/" ++ id ++ "/download" =
      c.baseURL ++ "/api/" ++ client.APIVersion ++ "/" ++ ("documents/" ++ id ++ "/download")
    rw [show ("/documents/" : String) = "/" ++ "documents/" from rfl]
    simp only [String.append_assoc]

/-- Helper: the FormatSize loop, run with enough fuel, multiplies div by 1024
once per iteration and stops at the first exponent whose quotient drops below
1024. -/
theorem sizeLoop_spec (fuel : Nat) :
    ∀ (n div exp : Nat), n < 1024 ^ fuel →
      ∃ j, output.sizeLoop fuel n div exp = (div * 1024 ^ j, exp + j) ∧
        n / 1024 ^ j < 1024 ∧ ∀ i, i < j → 1024 ≤ n / 1024 ^ i := by
  induction fuel with
  | zero =>
    intro n div exp h
    refine ⟨0, by simp [output.sizeLoop], ?_, fun i hi => absurd hi (by omega)⟩
    have hn : n = 0 := by simpa using h
    simp [hn]
  | succ f ih =>
    intro n div exp h
    by_cases h1 : 1024 ≤ n
    · have h2 : n / 1024 < 1024 ^ f := by
        rw [pow_succ'] at h
        exact Nat.div_lt_of_lt_mul h
      obtain ⟨j, hj, hlt, hge⟩ := ih (n / 1024) (div * 1024) (exp + 1) h2
      refine ⟨j + 1, ?_, ?_, ?_⟩
      · rw [output.sizeLoop, if_pos h1, hj]
        simp only [Prod.mk.injEq]
        constructor
        · ring
        · omega
      · rw [pow_succ', ← Nat.div_div_eq_div_mul]
        exact hlt
      · intro i hi
        cases i with
        | zero => simpa using h1
        | succ i2 =>
          rw [pow_succ', ← Nat.div_div_eq_div_mul]
          exact hge i2 (by omega)
    · exact ⟨0, by rw [output.sizeLoop, if_neg h1]; simp, by simpa using (by omega : n < 1024),
        fun i hi => absurd hi (by omega)⟩

/-- C5: FormatSize prints values below 1024 as the plain decimal with a B
suffix (in particular 0 B and 1023 B); any other int64 value is divided by
the power of 1024 that normalizes it below 1024 (1024 to the e+1 with
1024 to the e+1 <= bytes < 1024 to the e+2), printed with one decimal digit
via the float64 division, and suffixed with the matching unit letter from
KMGTPE and B (in particular 1.0 KB, 1.5 KB, 1.0 MB). -/
theorem formatSize_spec :
    (output.FormatSize 0 = "0 B" ∧ output.FormatSize 1023 = "1023 B" ∧
     output.FormatSize 1024 = "1.0 KB" ∧ output.FormatSize 1536 = "1.5 KB" ∧
     output.FormatSize 1048576 = "1.0 MB") ∧
    (∀ b : Int, b < 1024 → output.FormatSize b = toString b ++ " B") ∧
    (∀ b : Int, 1024 ≤ b → b < 2 ^ 63 →
      ∃ e, e ≤ 5 ∧ 1024 ^ (e + 1) ≤ b.toNat ∧ b.toNat < 1024 ^ (e + 2) ∧
        output.FormatSize b =
          output.fmtDec1 (output.fl53 b.toNat) (1024 ^ (e + 1)) ++ " " ++
            String.singleton (output.unitChars.getD e '?') ++ "B") := by
  refine ⟨⟨by decide, by decide, by decide, by decide, by decide⟩, ?_, ?_⟩
  · intro b hb
    rw [output.FormatSize, if_pos hb]
  · intro b h1 h2
    have hb1024 : ¬ b < 1024 := by omega
    have hn : 1024 ≤ b.toNat := by omega
    have hn2 : b.toNat < 2 ^ 63 := by omega
    have hfuel : b.toNat / 1024 < 1024 ^ 64 := by
      have hle : b.toNat / 1024 ≤ b.toNat := Nat.div_le_self _ _
      have hbig : (2 : Nat) ^ 63 < 1024 ^ 64 := by norm_num
      omega
    obtain ⟨j, hj, hlt, hge⟩ := sizeLoop_spec 64 (b.toNat / 1024) 1024 0 hfuel
    have hdiv : (1024 : Nat) * 1024 ^ j = 1024 ^ (j + 1) := (pow_succ' 1024 j).symm
    have hA : b.toNat / 1024 ^ (j + 1) < 1024 := by
      rw [pow_succ', ← Nat.div_div_eq_div_mul]
      exact hlt
    have hup : b.toNat < 1024 ^ (j + 2) := by
      have hm := (Nat.div_lt_iff_lt_mul (by positivity : 0 < 1024 ^ (j + 1))).mp hA
      calc b.toNat < 1024 * 1024 ^ (j + 1) := hm
        _ = 1024 ^ (j + 2) := (pow_succ' 1024 (j + 1)).symm
    have hlow : 1024 ^ (j + 1) ≤ b.toNat := by
      cases j with
      | zero => simpa using hn
      | succ j2 =>
        have hB : 1024 ≤ b.toNat / 1024 ^ (j2 + 1) := by
          rw [pow_succ', ← Nat.div_div_eq_div_mul]
          exact hge j2 (by omega)
        have hm := (Nat.le_div_iff_mul_le (by positivity : 0 < 1024 ^ (j2 + 1))).mp hB
        calc 1024 ^ (j2 + 1 + 1) = 1024 * 1024 ^ (j2 + 1) := pow_succ' 1024 (j2 + 1)
          _ = 1024 ^ (j2 + 1) * 1024 := by ring
          _ ≤ b.toNat := by
              calc 1024 ^ (j2 + 1) * 1024 = 1024 * 1024 ^ (j2 + 1) := by ring
                _ ≤ b.toNat := hm
    have hj5 : j ≤ 5 := by
      by_contra hc
      push_neg at hc
      have h7 : (1024 : Nat) ^ 7 ≤ 1024 ^ (j + 1) :=
        Nat.pow_le_pow_right (by omega) (by omega)
      have hbig : (2 : Nat) ^ 63 < 1024 ^ 7 := by norm_num
      omega
    refine ⟨j, hj5, hlow, hup, ?_⟩
    rw [output.FormatSize, if_neg hb1024, hj]
    simp only [hdiv, Nat.zero_add]

/-- Witness for formatSize_spec: the small-value clause at -5 and the
normalized clause at 1536. -/
theorem formatSize_spec_witness :
    output.FormatSize (-5) = toString (-5 : Int) ++ " B" ∧
    ∃ e, e ≤ 5 ∧ 1024 ^ (e + 1) ≤ (1536 : Int).toNat ∧
      (1536 : Int).toNat < 1024 ^ (e + 2) ∧
      output.FormatSize 1536 =
        output.fmtDec1 (output.fl53 (1536 : Int).toNat) (1024 ^ (e + 1)) ++ " " ++
          String.singleton (output.unitChars.getD e '?') ++ "B" :=
  ⟨formatSize_spec.2.1 (-5) (by decide), formatSize_spec.2.2 1536 (by decide) (by decide)⟩
